import Mathlib

set_option linter.unusedVariables false

namespace TranslatorBot

/-!
Shallow embedding of the Discord translator bot's message translation
relay engine (the revision of the source beginning at the
`http`/`discord.js` prelude, containing `detectLanguage`, `translate`,
`isRateLimited`, `isReactionRateLimited`, `markTranslated`, the
`messageCreate` admission sequence and the `/add`, `/remove` command
bodies).  Times are milliseconds as natural numbers; `Date.now()`
values are positive.  All `now - t` comparisons in the source compare a
difference against a positive constant, and truncated natural
subtraction agrees with JS signed subtraction on every such comparison
(a negative difference and a truncated-to-zero difference fall on the
same side of each constant).
-/

/-- Constant `TRANSLATION_COOLDOWN = 2000` ms. -/
def TRANSLATION_COOLDOWN : Nat := 2000

/-- Constant `CACHE_TTL = 120000` ms. -/
def CACHE_TTL : Nat := 120000

/-- Constant `REACTION_COOLDOWN = 30000` ms. -/
def REACTION_COOLDOWN : Nat := 30000

/-- Constant `MAX_REACTIONS_PER_MINUTE = 5`. -/
def MAX_REACTIONS_PER_MINUTE : Nat := 5

/-- List `SERVICE_CAPABILITIES.deepl`: the 29 target tags DeepL is
selected for.  The key set of `langMap` inside `translateWithDeepL` is
the same 29 tags. -/
def deeplCapabilities : List String :=
  ["en", "de", "es", "fr", "it", "nl", "pl", "pt", "ru", "ja", "zh", "ko",
   "tr", "sv", "da", "fi", "no", "cs", "bg", "ro", "el", "hu", "sk", "sl",
   "et", "lv", "lt", "id", "uk"]

/-- Character classes of the JS regexes used by `detectLanguage`'s
cleaning step `/[^\p{L}\s]/gu`: which characters count as Unicode
letters (`\p{L}`) and whitespace (`\s`).  The full Unicode tables are
external data, so they are parameters of the embedding; every theorem
below holds for all instantiations. -/
structure RegexClasses where
  isLetter : Char → Bool
  isSpace : Char → Bool

/-- ASCII instantiation of the regex classes, used for concrete runs on
ASCII and Cyrillic sample text (where it agrees with `\p{L}` and `\s`). -/
def sampleClasses : RegexClasses where
  isLetter := fun c => c.isAlpha || decide (0x400 ≤ c.toNat ∧ c.toNat ≤ 0x4FF)
  isSpace := Char.isWhitespace

/-- UTF-16 length of one character: JS `string.length` counts code
units, and characters outside the BMP occupy a surrogate pair. -/
def utf16Len (c : Char) : Nat := if c.toNat ≥ 0x10000 then 2 else 1

/-- UTF-16 length of a character list (JS `cleanText.length`). -/
def utf16Length (l : List Char) : Nat := (l.map utf16Len).sum

/-- Number of characters whose code point lies in the inclusive range
`[lo, hi]`.  The script-counting regexes of `detectLanguage` lack the
`u` flag and scan code units, but every range used lies in the BMP and
excludes the surrogate range, so code-unit matches coincide with
code-point matches. -/
def countRange (l : List Char) (lo hi : Nat) : Nat :=
  (l.filter (fun c => decide (lo ≤ c.toNat ∧ c.toNat ≤ hi))).length

/-- Cleaning step `text.replace(/[^\p{L}\s]/gu, '')` of
`detectLanguage`: strip every character that is neither a letter nor
whitespace. -/
def cleanedText (rc : RegexClasses) (text : String) : List Char :=
  text.toList.filter (fun c => rc.isLetter c || rc.isSpace c)

/-- The `scripts` object of `detectLanguage`, in `Object.entries`
(insertion) order: per-script match counts over the cleaned text. -/
def scriptCounts (rc : RegexClasses) (text : String) : List (String × Nat) :=
  [("hi", countRange (cleanedText rc text) 0x0900 0x097F),
   ("ar", countRange (cleanedText rc text) 0x0600 0x06FF),
   ("zh", countRange (cleanedText rc text) 0x4E00 0x9FFF),
   ("ja", countRange (cleanedText rc text) 0x3040 0x309F +
          countRange (cleanedText rc text) 0x30A0 0x30FF),
   ("ko", countRange (cleanedText rc text) 0xAC00 0xD7AF),
   ("ru", countRange (cleanedText rc text) 0x0400 0x04FF)]

/-- Function `detectLanguage(text)`: strip characters that are neither
letters nor whitespace, return `en` on an empty remainder, otherwise
return the first script in the fixed order hi, ar, zh, ja, ko, ru whose
count exceeds 30% of the cleaned length, defaulting to `en`.  The IEEE
double threshold `count > total * 0.3` is modelled as
`10 * count > 3 * total`, which agrees with double arithmetic for all
realistic lengths (the rounding error of `total * 0.3` is below half an
ulp of `3 * total / 10` whenever that quotient is an integer). -/
def detectLanguage (rc : RegexClasses) (text : String) : String :=
  let total := utf16Length (cleanedText rc text)
  if total = 0 then "en"
  else
    match (scriptCounts rc text).find? (fun p => decide (10 * p.2 > 3 * total)) with
    | some p => p.1
    | none => "en"

/-- Environment of external collaborators for `translate`: whether
`DEEPL_API_KEY` is set, the outcome of each provider's HTTP exchange as
a function of its arguments (deterministic within one scenario), and
the regex classes.  `deepl` yields `response.data?.translations?.[0]?.text`,
which may be absent (`none`); `mymemory` yields the translated text or
throws. -/
structure Oracle where
  deeplKey : Bool
  deepl : String → String → String → Except Unit (Option String)
  mymemory : String → String → String → Except Unit String
  rc : RegexClasses

/-- Observable external calls made during one `translate` invocation:
a DeepL HTTP request, a MyMemory HTTP request, or a run of the local
`detectLanguage` heuristic. -/
inductive CallEvent where
  | deeplCall
  | mymemoryCall
  | detectCall
deriving DecidableEq

/-- One `translationCache` entry: `{ result, timestamp }` where a
`null`-ish result is `none`. -/
structure CacheEntry where
  result : Option String
  timestamp : Nat
deriving DecidableEq

/-- The `translationCache` map, as an insertion-ordered association
list (JS `Map` iteration order). -/
abbrev Cache := List (String × CacheEntry)

/-- Lookup in a JS `Map` modelled as an association list. -/
def lookupA {α : Type} : List (String × α) → String → Option α
  | [], _ => none
  | p :: rest, k => if p.1 = k then some p.2 else lookupA rest k

/-- JS `Map.set`: update the existing entry in place, else append. -/
def setA {α : Type} : List (String × α) → String → α → List (String × α)
  | [], k, v => [(k, v)]
  | p :: rest, k, v => if p.1 = k then (k, v) :: rest else p :: setA rest k v

/-- Function `translateWithDeepL(text, sourceLang, targetLang)`: throws
when the API key is missing or the target is outside its language map;
otherwise performs the HTTP call (one `deeplCall` event).  Whether a
`source_lang` parameter is attached is a detail of the request body and
is absorbed into the oracle, which sees the raw arguments. -/
def translateWithDeepL (env : Oracle) (text sourceLang targetLang : String) :
    Except Unit (Option String) × List CallEvent :=
  if !env.deeplKey then (.error (), [])
  else if !(deeplCapabilities.contains targetLang) then (.error (), [])
  else (env.deepl text sourceLang targetLang, [.deeplCall])

/-- Function `translateWithMyMemory(text, sourceLang, targetLang)`:
always performs the HTTP call and throws unless the response status is
200. -/
def translateWithMyMemory (env : Oracle) (text sourceLang targetLang : String) :
    Except Unit String × List CallEvent :=
  (env.mymemory text sourceLang targetLang, [.mymemoryCall])

/-- Expression `finalSource === 'auto' ? detectLanguage(text) : finalSource`
computing `myMemorySource`, recording the local-detection run. -/
def resolveMyMemorySource (env : Oracle) (text finalSource : String) :
    String × List CallEvent :=
  if finalSource = "auto" then (detectLanguage env.rc text, [.detectCall])
  else (finalSource, [])

/-- Result of the `try`/`catch` body of `translate`: `ret` is an early
`return` that bypasses the trailing cache write (the same-language
skip), `res` a result that flows to the cache write, `err` an uncaught
throw that propagates to the caller. -/
inductive TryOut where
  | ret (r : Option String)
  | res (r : Option String)
  | err
deriving DecidableEq

/-- The `catch` block of `translate`, entered after the body threw:
when `useDeepL` holds it falls back to MyMemory, re-resolving the
source and re-checking the same-language skip; otherwise it rethrows. -/
def translateCatch (env : Oracle) (text finalSource targetLang : String)
    (useDeepL : Bool) : TryOut × List CallEvent :=
  if useDeepL then
    let rs := resolveMyMemorySource env text finalSource
    if rs.1 = targetLang then (.ret none, rs.2)
    else
      let mm := translateWithMyMemory env text rs.1 targetLang
      match mm.1 with
      | .ok r => (.res (some r), rs.2 ++ mm.2)
      | .error _ => (.err, rs.2 ++ mm.2)
  else (.err, [])

/-- The `try` body of `translate` together with its `catch`: DeepL when
the target is in its capability list and the key is present, otherwise
MyMemory behind the same-language short-circuit; any throw lands in
`translateCatch`. -/
def translateTry (env : Oracle) (text finalSource targetLang : String)
    (useDeepL : Bool) : TryOut × List CallEvent :=
  if useDeepL && env.deeplKey then
    let dl := translateWithDeepL env text finalSource targetLang
    match dl.1 with
    | .ok r => (.res r, dl.2)
    | .error _ =>
      let c := translateCatch env text finalSource targetLang useDeepL
      (c.1, dl.2 ++ c.2)
  else
    let rs := resolveMyMemorySource env text finalSource
    if rs.1 = targetLang then (.ret none, rs.2)
    else
      let mm := translateWithMyMemory env text rs.1 targetLang
      match mm.1 with
      | .ok r => (.res (some r), rs.2 ++ mm.2)
      | .error _ =>
        let c := translateCatch env text finalSource targetLang useDeepL
        (c.1, rs.2 ++ mm.2 ++ c.2)

/-- Cache key `` `${text}-${sourceLang}-${targetLang}` ``. -/
def cacheKey (text sourceLang targetLang : String) : String :=
  text ++ "-" ++ sourceLang ++ "-" ++ targetLang

/-- Trailing cache write of `translate`: store `{ result, timestamp: now }`
under the key, then once more than 100 entries are stored scan all
entries and drop those past `CACHE_TTL`. -/
def cacheWrite (st : Cache) (key : String) (r : Option String) (now : Nat) :
    Cache :=
  let st1 := setA st key ⟨r, now⟩
  if st1.length > 100
  then st1.filter (fun p => !(decide (now - p.2.timestamp > CACHE_TTL)))
  else st1

/-- The cache-miss path of `translate`: provider selection (`useDeepL`),
the `try`/`catch`, and for a non-early-return result the cache write
followed by the opportunistic eviction scan. -/
def translateMiss (env : Oracle) (st : Cache) (now : Nat)
    (text sourceLang targetLang : String) :
    Except Unit (Option String) × Cache × List CallEvent :=
  let finalSource := sourceLang
  let useDeepL := deeplCapabilities.contains targetLang
  let t := translateTry env text finalSource targetLang useDeepL
  match t.1 with
  | .ret r => (.ok r, st, t.2)
  | .err => (.error (), st, t.2)
  | .res r =>
    (.ok r, cacheWrite st (cacheKey text sourceLang targetLang) r now, t.2)

/-- Function `translate(text, sourceLang, targetLang)`: serve a cache
entry younger than `CACHE_TTL`, else run the miss path.  Returns the
result (`Except` for a thrown error, `Option` for `null`), the new
cache, and the external calls made. -/
def translate (env : Oracle) (st : Cache) (now : Nat)
    (text sourceLang targetLang : String) :
    Except Unit (Option String) × Cache × List CallEvent :=
  match lookupA st (cacheKey text sourceLang targetLang) with
  | some e =>
    if now - e.timestamp < CACHE_TTL then (.ok e.result, st, [])
    else translateMiss env st now text sourceLang targetLang
  | none => translateMiss env st now text sourceLang targetLang

/-- The `rateLimits` map `userId-channelId → timestamp`. -/
abbrev RateMap := List (String × Nat)

/-- Key expression `` `${userId}-${channelId}` `` of `isRateLimited`. -/
def rlKey (userId channelId : String) : String := userId ++ "-" ++ channelId

/-- Admission tail of `isRateLimited`: record `now` under the key, then
purge entries older than twice the cooldown once more than 500 keys are
tracked. -/
def rlRecord (rl : RateMap) (key : String) (now : Nat) : RateMap :=
  let rl1 := setA rl key now
  if rl1.length > 500
  then rl1.filter (fun p => !(decide (now - p.2 > TRANSLATION_COOLDOWN * 2)))
  else rl1

/-- Function `isRateLimited(userId, channelId)`: reject when the stored
timestamp is truthy and within the cooldown, else record `now` and
admit.  A stored timestamp of `0` is falsy in JS, hence the `t ≠ 0`
guard.  Returns (limited?, new map). -/
def isRateLimited (rl : RateMap) (userId channelId : String) (now : Nat) :
    Bool × RateMap :=
  match lookupA rl (rlKey userId channelId) with
  | some t =>
    if t ≠ 0 ∧ now - t < TRANSLATION_COOLDOWN then (true, rl)
    else (false, rlRecord rl (rlKey userId channelId) now)
  | none => (false, rlRecord rl (rlKey userId channelId) now)

/-- One `reactionLimits` entry: `{ count, resetTime }`. -/
structure ReactionLimit where
  count : Nat
  resetTime : Nat
deriving DecidableEq

/-- Function `isReactionRateLimited(userId, guildId, channelId,
cooldownEnabled)` projected to a single `userId-guildId-channelId` key
(no other code reads or writes a key's entry).  Returns (limited?, new
entry). -/
def isReactionRateLimited (st : Option ReactionLimit) (now : Nat)
    (cooldownEnabled : Bool) : Bool × Option ReactionLimit :=
  if !cooldownEnabled then (false, st)
  else
    match st with
    | none => (false, some ⟨1, now + REACTION_COOLDOWN⟩)
    | some l =>
      if now > l.resetTime then (false, some ⟨1, now + REACTION_COOLDOWN⟩)
      else if l.count ≥ MAX_REACTIONS_PER_MINUTE then (true, some l)
      else (false, some ⟨l.count + 1, l.resetTime⟩)

/-- Loop-guard state: the `recentTranslations` set together with the
deletions scheduled by `setTimeout` at insertion time (id, fire time). -/
structure LoopGuard where
  members : List String
  timers : List (String × Nat)
deriving DecidableEq

/-- Function `markTranslated(messageId)`: add the id to the set and
schedule its deletion 30000 ms later. -/
def markTranslated (g : LoopGuard) (messageId : String) (now : Nat) :
    LoopGuard :=
  { members := messageId :: g.members
    timers := (messageId, now + 30000) :: g.timers }

/-- Advance the clock: every scheduled deletion whose fire time has
arrived removes its id from the set (JS timers run once the event loop
reaches their deadline). -/
def fireTimers (g : LoopGuard) (now : Nat) : LoopGuard :=
  { members := g.members.filter
      (fun i => !(g.timers.any (fun p => decide (p.1 = i ∧ p.2 ≤ now))))
    timers := g.timers.filter (fun p => !(decide (p.2 ≤ now))) }

/-- Membership test `recentTranslations.has(id)`. -/
def seen (g : LoopGuard) (messageId : String) : Bool :=
  g.members.contains messageId

/-- A `ChannelPair` record as built by the `/add` command. -/
structure ChannelPair where
  id : String
  guildId : String
  sourceChannel : String
  targetChannel : String
  sourceLang : String
  targetLang : String
  createdAt : String
deriving DecidableEq

/-- Reply issued by the `/add` command body. -/
inductive AddOutcome where
  | sameChannelRejected
  | sameLanguageRejected
  | autoTargetRejected
  | duplicateRejected
  | created (pairs : List ChannelPair)
deriving DecidableEq

/-- The `/add` command body acting on the guild's in-memory pair list:
validation (same channel, same language unless `auto` source, `auto`
target), duplicate-forward-edge check, then creation of the forward
pair and, when `bidirectional` and no reverse edge exists, the reverse
pair.  `now` seeds the generated ids
`` `${Date.now()}_${source.id}_${target.id}` ``. -/
def addPair (pairs : List ChannelPair)
    (guildId source target sourceLang targetLang : String)
    (bidirectional : Bool) (now : Nat) (createdAt : String) :
    AddOutcome × List ChannelPair :=
  if source = target then (.sameChannelRejected, pairs)
  else if sourceLang = targetLang ∧ sourceLang ≠ "auto" then
    (.sameLanguageRejected, pairs)
  else if targetLang = "auto" then (.autoTargetRejected, pairs)
  else
    let forwardId := toString now ++ "_" ++ source ++ "_" ++ target
    let reverseId := toString (now + 1) ++ "_" ++ target ++ "_" ++ source
    if pairs.any (fun p => decide (p.sourceChannel = source ∧ p.targetChannel = target))
    then (.duplicateRejected, pairs)
    else
      let forward : List ChannelPair :=
        [⟨forwardId, guildId, source, target, sourceLang, targetLang, createdAt⟩]
      let newPairs :=
        if bidirectional ∧
            ¬ (pairs.any (fun p => decide (p.sourceChannel = target ∧ p.targetChannel = source)) = true)
        then forward ++
          [⟨reverseId, guildId, target, source, targetLang, sourceLang, createdAt⟩]
        else forward
      (.created newPairs, pairs ++ newPairs)

/-- Reply issued by the `/remove` command body. -/
inductive RemoveOutcome where
  | noPairs
  | notFound
  | removed (p : ChannelPair)
deriving DecidableEq

/-- The `/remove` command body: report when no pairs are configured,
report not-found when no pair has the given id, else splice out the
first matching pair. -/
def removePair (pairs : List ChannelPair) (pairId : String) :
    RemoveOutcome × List ChannelPair :=
  if pairs.isEmpty then (.noPairs, pairs)
  else
    match pairs.find? (fun p => decide (p.id = pairId)) with
    | none => (.notFound, pairs)
    | some p => (.removed p, pairs.eraseP (fun q => decide (q.id = pairId)))

/-- The fields of an inbound Discord message consulted by the
`messageCreate` admission sequence. -/
structure Message where
  authorBot : Bool
  authorId : String
  guildId : Option String
  channelId : String
  content : String
  messageId : String
  attachmentsCount : Nat

/-- Where the `messageCreate` handler stops (each early `return`), or
admission to the fan-out loop. -/
inductive MsgOutcome where
  | droppedBot
  | droppedLoop
  | droppedNoGuild
  | droppedWhitelist
  | droppedRateLimited
  | droppedNoPairs
  | droppedEmpty
  | admitted
deriving DecidableEq

/-- Admission phase of the `messageCreate` handler, in source order:
bot check, loop-guard membership, guild presence, `ALLOWED_SERVERS`
whitelist, the cooldown limiter, the pair lookup
`getGuildPairs(guild).filter(p => p.sourceChannel === channel)`, and
the empty-content check.  `guildPairs` is `getGuildPairs`.  Returns the
outcome together with the updated cooldown map. -/
def messageAdmission (allowedServers : List String)
    (guildPairs : String → List ChannelPair) (g : LoopGuard) (rl : RateMap)
    (m : Message) (now : Nat) : MsgOutcome × RateMap :=
  if m.authorBot then (.droppedBot, rl)
  else if seen g m.messageId then (.droppedLoop, rl)
  else
    match m.guildId with
    | none => (.droppedNoGuild, rl)
    | some gid =>
      if allowedServers ≠ [] ∧ ¬ (allowedServers.contains gid = true)
      then (.droppedWhitelist, rl)
      else
        let step := isRateLimited rl m.authorId m.channelId now
        if step.1 then (.droppedRateLimited, step.2)
        else
          let pairs := (guildPairs gid).filter
            (fun p => decide (p.sourceChannel = m.channelId))
          if pairs.isEmpty then (.droppedNoPairs, step.2)
          else if m.content.trim = "" ∧ m.attachmentsCount = 0
          then (.droppedEmpty, step.2)
          else (.admitted, step.2)

/-- One call arriving at the cooldown limiter. -/
structure RLOp where
  userId : String
  channelId : String
  now : Nat

/-- Run a sequence of calls through `isRateLimited`, collecting the key
and time of every admitted call. -/
def runRL (rl : RateMap) : List RLOp → RateMap × List (String × Nat)
  | [] => (rl, [])
  | op :: rest =>
    let step := isRateLimited rl op.userId op.channelId op.now
    let r1 := runRL step.2 rest
    (r1.1, if step.1 then r1.2 else (rlKey op.userId op.channelId, op.now) :: r1.2)

/-- Admitted times for one key in a collected admission list. -/
def admitTimes (k : String) (l : List (String × Nat)) : List Nat :=
  (l.filter (fun p => decide (p.1 = k))).map Prod.snd

/-- Run a sequence of enabled calls for one key through
`isReactionRateLimited`, counting admissions. -/
def runReaction (st : Option ReactionLimit) : List Nat → Option ReactionLimit × Nat
  | [] => (st, 0)
  | now :: rest =>
    let step := isReactionRateLimited st now true
    let r1 := runReaction step.2 rest
    (r1.1, if step.1 then r1.2 else r1.2 + 1)

/-- Concrete scenario: DeepL configured (`DEEPL_API_KEY` set) and its
HTTP call succeeding with the text "salut". -/
def envDeeplOk : Oracle :=
  { deeplKey := true
    deepl := fun _ _ _ => .ok (some "salut")
    mymemory := fun _ _ _ => .error ()
    rc := sampleClasses }

/-- Concrete scenario: no `DEEPL_API_KEY`, MyMemory failing. -/
def envNoKey : Oracle :=
  { deeplKey := false
    deepl := fun _ _ _ => .error ()
    mymemory := fun _ _ _ => .error ()
    rc := sampleClasses }

/-- Concrete scenario: DeepL configured but failing, MyMemory
succeeding with the text "hola". -/
def envFallback : Oracle :=
  { deeplKey := true
    deepl := fun _ _ _ => .error ()
    mymemory := fun _ _ _ => .ok "hola"
    rc := sampleClasses }

/-- A concrete configured pair used by witnesses. -/
def samplePair : ChannelPair :=
  ⟨"1_A_B", "g", "A", "B", "en", "es", "now"⟩

/-- Keys of a `Map` model are pairwise distinct (true of every state
reachable from the empty map). -/
def NodupKeys (l : RateMap) : Prop := (l.map Prod.fst).Nodup

/-! ### Helper lemmas about the association-list map operations -/

theorem lookupA_setA_self {α : Type} (l : List (String × α)) (k : String) (v : α) :
    lookupA (setA l k v) k = some v := by
  induction l with
  | nil => simp [setA, lookupA]
  | cons p rest ih =>
    by_cases h : p.1 = k
    · simp [setA, h, lookupA]
    · simp [setA, h, lookupA, ih]

theorem lookupA_setA_ne {α : Type} (l : List (String × α)) (k k2 : String) (v : α)
    (h : k ≠ k2) : lookupA (setA l k v) k2 = lookupA l k2 := by
  induction l with
  | nil => simp [setA, lookupA, h]
  | cons p rest ih =>
    by_cases hp : p.1 = k
    · simp [setA, hp, lookupA, h]
    · simp [setA, hp, lookupA, ih]

theorem lookupA_eq_none {α : Type} (l : List (String × α)) (k : String)
    (h : ∀ p ∈ l, p.1 ≠ k) : lookupA l k = none := by
  induction l with
  | nil => simp [lookupA]
  | cons p rest ih =>
    have hp := h p (by simp)
    simp only [lookupA, if_neg hp]
    exact ih (fun q hq => h q (by simp [hq]))

theorem lookupA_filter_setA (l : List (String × Nat)) (k : String) (v : Nat)
    (q : String × Nat → Bool) (hq : q (k, v) = true) :
    lookupA ((setA l k v).filter q) k = some v := by
  induction l with
  | nil => simp [setA, List.filter, hq, lookupA]
  | cons p rest ih =>
    by_cases hp : p.1 = k
    · simp [setA, hp, List.filter, hq, lookupA]
    · simp only [setA, if_neg hp, List.filter]
      cases hqp : q p with
      | true => simp [lookupA, hp, ih]
      | false => exact ih

/-! ### Claim C3: loop-guard TTL window -/

/-- Claim C3: after `markTranslated(id)` at time `s` (for an id with no
deletion already pending), `recentTranslations.has(id)` is true at
every instant of the 30-second TTL window `[s, s + 30000)`, and once
the scheduled deletion fires at `s + 30000` the id is removed, so it
would be admitted again. -/
theorem markTranslated_ttl_window (g : LoopGuard) (id : String) (s : Nat)
    (hfresh : ∀ p ∈ g.timers, p.1 ≠ id) :
    (∀ t, s ≤ t → t < s + 30000 →
      seen (fireTimers (markTranslated g id s) t) id = true) ∧
    (∀ t, s + 30000 ≤ t →
      seen (fireTimers (markTranslated g id s) t) id = false) := by
  constructor
  · intro t hst htl
    have hpred : (((id, s + 30000) :: g.timers).any
        (fun p => decide (p.1 = id ∧ p.2 ≤ t))) = false := by
      simp only [List.any_eq_false]
      intro p hp
      rcases List.mem_cons.mp hp with h | h
      · subst h
        simp only [decide_eq_true_eq, not_and]
        intro _
        omega
      · simp [hfresh p h]
    simp only [seen, fireTimers, markTranslated]
    apply List.elem_eq_true_of_mem
    rw [List.mem_filter]
    refine ⟨by simp, ?_⟩
    simp only [Bool.not_eq_true']
    exact hpred
  · intro t ht
    have hpred : (((id, s + 30000) :: g.timers).any
        (fun p => decide (p.1 = id ∧ p.2 ≤ t))) = true := by
      simp only [List.any_cons]
      simp [ht]
    simp only [seen, fireTimers, markTranslated]
    rw [Bool.eq_false_iff]
    intro hcon
    have hmem := List.mem_of_elem_eq_true hcon
    rw [List.mem_filter] at hmem
    have h2 := hmem.2
    rw [Bool.not_eq_true'] at h2
    rw [hpred] at h2
    simp at h2

/-! ### Claim C5: reaction burst limiter -/

/-- Admissions while inside one window never push the count past the
maximum: starting from `{count := c, resetTime := r}` and processing
calls all at or before `r`, at most `MAX - c` further calls are
admitted. -/
theorem runReaction_window (ts : List Nat) :
    ∀ c r : Nat, (∀ t ∈ ts, t ≤ r) →
      (runReaction (some ⟨c, r⟩) ts).2 ≤ MAX_REACTIONS_PER_MINUTE - c := by
  induction ts with
  | nil => intro c r h; simp [runReaction]
  | cons t rest ih =>
    intro c r h
    have htr : t ≤ r := h t (by simp)
    have hrest : ∀ u ∈ rest, u ≤ r := fun u hu => h u (by simp [hu])
    have hred : isReactionRateLimited (some ⟨c, r⟩) t true =
        if t > r then (false, some ⟨1, t + REACTION_COOLDOWN⟩)
        else if c ≥ MAX_REACTIONS_PER_MINUTE then (true, some ⟨c, r⟩)
        else (false, some ⟨c + 1, r⟩) := rfl
    rw [if_neg (by omega)] at hred
    by_cases hc : c ≥ MAX_REACTIONS_PER_MINUTE
    · rw [if_pos hc] at hred
      have := ih c r hrest
      simp [runReaction, hred]
      omega
    · rw [if_neg hc] at hred
      have := ih (c + 1) r hrest
      simp [runReaction, hred]
      omega

/-- Claim C5: the burst limiter `isReactionRateLimited` (i) always
admits and leaves state untouched when cooldown is disabled for the
channel; (ii) initializes `{count: 1, resetTime: now + REACTION_COOLDOWN}`
and admits on a missing entry or an expired deadline; (iii) within the
window increments and admits exactly while the stored count is below
the maximum (so the post-increment count stays at or below it) and
rejects once the count has reached the maximum; (iv) keeps the stored
counter at or above 1 (in particular never negative); and (v) admits at
most `MAX_REACTIONS_PER_MINUTE = 5` calls per reset window. -/
theorem reaction_burst_limit :
    (∀ st now, isReactionRateLimited st now false = (false, st)) ∧
    (∀ now, isReactionRateLimited none now true =
      (false, some ⟨1, now + REACTION_COOLDOWN⟩)) ∧
    (∀ l now, l.resetTime < now →
      isReactionRateLimited (some l) now true =
        (false, some ⟨1, now + REACTION_COOLDOWN⟩)) ∧
    (∀ l now, now ≤ l.resetTime → l.count < MAX_REACTIONS_PER_MINUTE →
      isReactionRateLimited (some l) now true =
        (false, some ⟨l.count + 1, l.resetTime⟩)) ∧
    (∀ l now, now ≤ l.resetTime → MAX_REACTIONS_PER_MINUTE ≤ l.count →
      isReactionRateLimited (some l) now true = (true, some l)) ∧
    (∀ st now en l2, (isReactionRateLimited st now en).2 = some l2 →
      (st = none → 1 ≤ l2.count) ∧
      (∀ l, st = some l → 1 ≤ l.count → 1 ≤ l2.count)) ∧
    (∀ t0 ts, (∀ t ∈ ts, t ≤ t0 + REACTION_COOLDOWN) →
      (runReaction none (t0 :: ts)).2 ≤ MAX_REACTIONS_PER_MINUTE) := by
  refine ⟨?_, ?_, ?_, ?_, ?_, ?_, ?_⟩
  · intro st now; rfl
  · intro now; rfl
  · intro l now h
    have hred : isReactionRateLimited (some l) now true =
        if now > l.resetTime then (false, some ⟨1, now + REACTION_COOLDOWN⟩)
        else if l.count ≥ MAX_REACTIONS_PER_MINUTE then (true, some l)
        else (false, some ⟨l.count + 1, l.resetTime⟩) := rfl
    rw [hred, if_pos (by omega)]
  · intro l now h hc
    have hred : isReactionRateLimited (some l) now true =
        if now > l.resetTime then (false, some ⟨1, now + REACTION_COOLDOWN⟩)
        else if l.count ≥ MAX_REACTIONS_PER_MINUTE then (true, some l)
        else (false, some ⟨l.count + 1, l.resetTime⟩) := rfl
    rw [hred, if_neg (by omega), if_neg (by omega)]
  · intro l now h hc
    have hred : isReactionRateLimited (some l) now true =
        if now > l.resetTime then (false, some ⟨1, now + REACTION_COOLDOWN⟩)
        else if l.count ≥ MAX_REACTIONS_PER_MINUTE then (true, some l)
        else (false, some ⟨l.count + 1, l.resetTime⟩) := rfl
    rw [hred, if_neg (by omega), if_pos hc]
  · intro st now en l2 h
    constructor
    · intro hst
      subst hst
      cases en with
      | false =>
        have h2 : (none : Option ReactionLimit) = some l2 := h
        simp at h2
      | true =>
        have h2 : some (⟨1, now + REACTION_COOLDOWN⟩ : ReactionLimit) = some l2 := h
        injection h2 with h3
        cases h3
        exact le_refl 1
    · intro l hst hl
      subst hst
      cases en with
      | false =>
        have h2 : some l = some l2 := h
        injection h2 with h3
        cases h3
        exact hl
      | true =>
        have hred : isReactionRateLimited (some l) now true =
            if now > l.resetTime then (false, some ⟨1, now + REACTION_COOLDOWN⟩)
            else if l.count ≥ MAX_REACTIONS_PER_MINUTE then (true, some l)
            else (false, some ⟨l.count + 1, l.resetTime⟩) := rfl
        rw [hred] at h
        by_cases hr : now > l.resetTime
        · rw [if_pos hr] at h
          have h2 : some (⟨1, now + REACTION_COOLDOWN⟩ : ReactionLimit) = some l2 := h
          injection h2 with h3
          cases h3
          exact le_refl 1
        · rw [if_neg hr] at h
          by_cases hc : l.count ≥ MAX_REACTIONS_PER_MINUTE
          · rw [if_pos hc] at h
            have h2 : some l = some l2 := h
            injection h2 with h3
            cases h3
            exact hl
          · rw [if_neg hc] at h
            have h2 : some (⟨l.count + 1, l.resetTime⟩ : ReactionLimit) = some l2 := h
            injection h2 with h3
            cases h3
            show 1 ≤ l.count + 1
            omega
  · intro t0 ts hts
    have hstep : isReactionRateLimited none t0 true =
        (false, some ⟨1, t0 + REACTION_COOLDOWN⟩) := rfl
    have := runReaction_window ts 1 (t0 + REACTION_COOLDOWN) hts
    have hM : MAX_REACTIONS_PER_MINUTE = 5 := rfl
    simp [runReaction, hstep]
    omega

/-- Witness for C5: from an empty state, seven enabled calls inside one
window admit exactly five. -/
theorem reaction_burst_limit_wit :
    (runReaction none [100, 100, 100, 100, 100, 100, 100]).2 ≤
      MAX_REACTIONS_PER_MINUTE ∧
    isReactionRateLimited none 7 false = (false, none) :=
  ⟨reaction_burst_limit.2.2.2.2.2.2 100 [100, 100, 100, 100, 100, 100]
      (by intro t ht; simp at ht; omega),
   reaction_burst_limit.1 none 7⟩

/-- Witness for C3: a freshly marked id is still present 29999 ms after
the mark and gone 30000 ms after it. -/
theorem markTranslated_ttl_window_wit :
    seen (fireTimers (markTranslated ⟨[], []⟩ "m" 100) 30099) "m" = true ∧
    seen (fireTimers (markTranslated ⟨[], []⟩ "m" 100) 30100) "m" = false :=
  ⟨(markTranslated_ttl_window ⟨[], []⟩ "m" 100 (by simp)).1 30099 (by omega) (by omega),
   (markTranslated_ttl_window ⟨[], []⟩ "m" 100 (by simp)).2 30100 (by omega)⟩

/-! ### Claim C6: language detector -/

/-- Claim C6: `detectLanguage` maps every input into the fixed tag set
hi, ar, zh, ja, ko, ru, en (totality and determinism hold by
construction: it is a pure function); it returns `en` when the cleaned
length is zero, otherwise the tag of the first script in the fixed
priority order Devanagari, Arabic, CJK, Hiragana/Katakana, Hangul,
Cyrillic whose count exceeds 30% of the cleaned length, and `en` when
no script clears the threshold. -/
theorem detectLanguage_total_fixed_tags (rc : RegexClasses) (text : String) :
    detectLanguage rc text ∈ (["hi", "ar", "zh", "ja", "ko", "ru", "en"] : List String) ∧
    (utf16Length (cleanedText rc text) = 0 → detectLanguage rc text = "en") ∧
    (∀ total hi ar zh ja ko ru : Nat,
      total = utf16Length (cleanedText rc text) →
      hi = countRange (cleanedText rc text) 0x0900 0x097F →
      ar = countRange (cleanedText rc text) 0x0600 0x06FF →
      zh = countRange (cleanedText rc text) 0x4E00 0x9FFF →
      ja = countRange (cleanedText rc text) 0x3040 0x309F +
           countRange (cleanedText rc text) 0x30A0 0x30FF →
      ko = countRange (cleanedText rc text) 0xAC00 0xD7AF →
      ru = countRange (cleanedText rc text) 0x0400 0x04FF →
      total ≠ 0 →
      ((10 * hi > 3 * total → detectLanguage rc text = "hi") ∧
       (¬ 10 * hi > 3 * total → 10 * ar > 3 * total →
         detectLanguage rc text = "ar") ∧
       (¬ 10 * hi > 3 * total → ¬ 10 * ar > 3 * total → 10 * zh > 3 * total →
         detectLanguage rc text = "zh") ∧
       (¬ 10 * hi > 3 * total → ¬ 10 * ar > 3 * total → ¬ 10 * zh > 3 * total →
         10 * ja > 3 * total → detectLanguage rc text = "ja") ∧
       (¬ 10 * hi > 3 * total → ¬ 10 * ar > 3 * total → ¬ 10 * zh > 3 * total →
         ¬ 10 * ja > 3 * total → 10 * ko > 3 * total →
         detectLanguage rc text = "ko") ∧
       (¬ 10 * hi > 3 * total → ¬ 10 * ar > 3 * total → ¬ 10 * zh > 3 * total →
         ¬ 10 * ja > 3 * total → ¬ 10 * ko > 3 * total → 10 * ru > 3 * total →
         detectLanguage rc text = "ru") ∧
       (¬ 10 * hi > 3 * total → ¬ 10 * ar > 3 * total → ¬ 10 * zh > 3 * total →
         ¬ 10 * ja > 3 * total → ¬ 10 * ko > 3 * total → ¬ 10 * ru > 3 * total →
         detectLanguage rc text = "en"))) := by
  refine ⟨?_, ?_, ?_⟩
  · unfold detectLanguage
    by_cases h0 : utf16Length (cleanedText rc text) = 0
    · rw [if_pos h0]; simp
    · rw [if_neg h0]
      cases hfind : (scriptCounts rc text).find?
          (fun p => decide (10 * p.2 > 3 * utf16Length (cleanedText rc text))) with
      | none => simp
      | some p =>
        have hp := List.mem_of_find?_eq_some hfind
        simp only [scriptCounts, List.mem_cons, List.not_mem_nil, or_false] at hp
        rcases hp with h | h | h | h | h | h <;> subst h <;> simp
  · intro h0
    unfold detectLanguage
    rw [if_pos h0]
  · intro total hi ar zh ja ko ru h1 h2 h3 h4 h5 h6 h7 h0
    subst h1; subst h2; subst h3; subst h4; subst h5; subst h6; subst h7
    refine ⟨?_, ?_, ?_, ?_, ?_, ?_, ?_⟩
    · intro g1
      unfold detectLanguage
      rw [if_neg h0]
      unfold scriptCounts
      rw [List.find?_cons_of_pos _ (by simpa using g1)]
    · intro n1 g1
      unfold detectLanguage
      rw [if_neg h0]
      unfold scriptCounts
      rw [List.find?_cons_of_neg _ (by simpa using n1),
          List.find?_cons_of_pos _ (by simpa using g1)]
    · intro n1 n2 g1
      unfold detectLanguage
      rw [if_neg h0]
      unfold scriptCounts
      rw [List.find?_cons_of_neg _ (by simpa using n1),
          List.find?_cons_of_neg _ (by simpa using n2),
          List.find?_cons_of_pos _ (by simpa using g1)]
    · intro n1 n2 n3 g1
      unfold detectLanguage
      rw [if_neg h0]
      unfold scriptCounts
      rw [List.find?_cons_of_neg _ (by simpa using n1),
          List.find?_cons_of_neg _ (by simpa using n2),
          List.find?_cons_of_neg _ (by simpa using n3),
          List.find?_cons_of_pos _ (by simpa using g1)]
    · intro n1 n2 n3 n4 g1
      unfold detectLanguage
      rw [if_neg h0]
      unfold scriptCounts
      rw [List.find?_cons_of_neg _ (by simpa using n1),
          List.find?_cons_of_neg _ (by simpa using n2),
          List.find?_cons_of_neg _ (by simpa using n3),
          List.find?_cons_of_neg _ (by simpa using n4),
          List.find?_cons_of_pos _ (by simpa using g1)]
    · intro n1 n2 n3 n4 n5 g1
      unfold detectLanguage
      rw [if_neg h0]
      unfold scriptCounts
      rw [List.find?_cons_of_neg _ (by simpa using n1),
          List.find?_cons_of_neg _ (by simpa using n2),
          List.find?_cons_of_neg _ (by simpa using n3),
          List.find?_cons_of_neg _ (by simpa using n4),
          List.find?_cons_of_neg _ (by simpa using n5),
          List.find?_cons_of_pos _ (by simpa using g1)]
    · intro n1 n2 n3 n4 n5 n6
      unfold detectLanguage
      rw [if_neg h0]
      unfold scriptCounts
      rw [List.find?_cons_of_neg _ (by simpa using n1),
          List.find?_cons_of_neg _ (by simpa using n2),
          List.find?_cons_of_neg _ (by simpa using n3),
          List.find?_cons_of_neg _ (by simpa using n4),
          List.find?_cons_of_neg _ (by simpa using n5),
          List.find?_cons_of_neg _ (by simpa using n6)]
      rfl

/-- Witness for C6: the Cyrillic branch fires on a concrete Russian
word under the sample regex classes. -/
theorem detectLanguage_total_fixed_tags_wit :
    detectLanguage sampleClasses "привет" = "ru" :=
  ((detectLanguage_total_fixed_tags sampleClasses "привет").2.2
    _ _ _ _ _ _ _ rfl rfl rfl rfl rfl rfl rfl
    (by decide)).2.2.2.2.2.1 (by decide) (by decide) (by decide) (by decide)
    (by decide) (by decide)

/-! ### Claim C8: pair-graph mutation invariants -/

/-- Claim C8: the pair mutation commands preserve the pair-list
invariants without partial mutation: an add with identical source and
target channel is rejected with the list unchanged; an add duplicating
an existing forward edge (same ordered channel pair) is rejected with
the list unchanged; a remove whose pair id matches nothing reports a
failure (empty-configuration or not-found reply) with the list
unchanged. -/
theorem pair_mutation_invariants :
    (∀ pairs gid s t sl tl b now ca, s = t →
      addPair pairs gid s t sl tl b now ca = (.sameChannelRejected, pairs)) ∧
    (∀ pairs gid s t sl tl b now ca, s ≠ t →
      ¬ (sl = tl ∧ sl ≠ "auto") → tl ≠ "auto" →
      (∃ p ∈ pairs, p.sourceChannel = s ∧ p.targetChannel = t) →
      addPair pairs gid s t sl tl b now ca = (.duplicateRejected, pairs)) ∧
    (∀ pairs pid, (∀ p ∈ pairs, p.id ≠ pid) →
      (removePair pairs pid).2 = pairs ∧
      ((removePair pairs pid).1 = .noPairs ∨ (removePair pairs pid).1 = .notFound)) := by
  refine ⟨?_, ?_, ?_⟩
  · intro pairs gid s t sl tl b now ca h
    unfold addPair
    rw [if_pos h]
  · intro pairs gid s t sl tl b now ca h1 h2 h3 hdup
    have hany : (pairs.any
        (fun p => decide (p.sourceChannel = s ∧ p.targetChannel = t))) = true := by
      rw [List.any_eq_true]
      rcases hdup with ⟨p, hp, hs, ht⟩
      exact ⟨p, hp, by simp [hs, ht]⟩
    unfold addPair
    rw [if_neg h1, if_neg h2, if_neg h3]
    simp only [hany, if_true]
  · intro pairs pid h
    unfold removePair
    by_cases he : pairs.isEmpty
    · rw [if_pos he]
      exact ⟨rfl, Or.inl rfl⟩
    · rw [if_neg he]
      have hfind : pairs.find? (fun p => decide (p.id = pid)) = none := by
        rw [List.find?_eq_none]
        intro p hp
        simp [h p hp]
      rw [hfind]
      exact ⟨rfl, Or.inr rfl⟩

/-- Witness for C8: same-channel add, duplicate add and unknown-id
remove on a concrete one-pair configuration. -/
theorem pair_mutation_invariants_wit :
    addPair [samplePair] "g" "A" "A" "en" "es" false 5 "ca" =
      (.sameChannelRejected, [samplePair]) ∧
    addPair [samplePair] "g" "A" "B" "en" "es" false 5 "ca" =
      (.duplicateRejected, [samplePair]) ∧
    (removePair [samplePair] "zzz").2 = [samplePair] :=
  ⟨pair_mutation_invariants.1 [samplePair] "g" "A" "A" "en" "es" false 5 "ca" rfl,
   pair_mutation_invariants.2.1 [samplePair] "g" "A" "B" "en" "es" false 5 "ca"
     (by decide) (by decide) (by decide) ⟨samplePair, by simp, rfl, rfl⟩,
   (pair_mutation_invariants.2.2 [samplePair] "zzz" (by decide)).1⟩

/-! ### Helper lemmas: the branches of `translate` on a cache miss -/

theorem resolve_log (env : Oracle) (text src : String) :
    ∀ e ∈ (resolveMyMemorySource env text src).2, e = CallEvent.detectCall := by
  intro e he
  unfold resolveMyMemorySource at he
  by_cases h : src = "auto"
  · rw [if_pos h] at he
    simpa using he
  · rw [if_neg h] at he
    simp at he

theorem translateRun_mm_skip (env : Oracle) (st : Cache) (now : Nat)
    (text src tgt : String)
    (hmiss : lookupA st (cacheKey text src tgt) = none)
    (hnd : (deeplCapabilities.contains tgt && env.deeplKey) = false)
    (hsame : (resolveMyMemorySource env text src).1 = tgt) :
    translate env st now text src tgt =
      (.ok none, st, (resolveMyMemorySource env text src).2) := by
  unfold translate
  rw [hmiss]
  unfold translateMiss
  simp only [translateTry, hnd, Bool.false_eq_true, if_false, hsame, if_pos, if_true]

theorem translateRun_mm_ok (env : Oracle) (st : Cache) (now : Nat)
    (text src tgt r : String)
    (hmiss : lookupA st (cacheKey text src tgt) = none)
    (hnd : (deeplCapabilities.contains tgt && env.deeplKey) = false)
    (hdiff : ¬ (resolveMyMemorySource env text src).1 = tgt)
    (hok : env.mymemory text (resolveMyMemorySource env text src).1 tgt = .ok r) :
    translate env st now text src tgt =
      (.ok (some r), cacheWrite st (cacheKey text src tgt) (some r) now,
       (resolveMyMemorySource env text src).2 ++ [CallEvent.mymemoryCall]) := by
  unfold translate
  rw [hmiss]
  unfold translateMiss
  simp only [translateTry, translateWithMyMemory, hnd, Bool.false_eq_true, if_false,
    hdiff, hok]

theorem translateRun_mm_err_retry (env : Oracle) (st : Cache) (now : Nat)
    (text src tgt : String)
    (hmiss : lookupA st (cacheKey text src tgt) = none)
    (hd : deeplCapabilities.contains tgt = true)
    (hk : env.deeplKey = false)
    (hdiff : ¬ (resolveMyMemorySource env text src).1 = tgt)
    (hfail : env.mymemory text (resolveMyMemorySource env text src).1 tgt = .error ()) :
    translate env st now text src tgt =
      (.error (), st,
       (resolveMyMemorySource env text src).2 ++ [CallEvent.mymemoryCall] ++
         ((resolveMyMemorySource env text src).2 ++ [CallEvent.mymemoryCall])) := by
  unfold translate
  rw [hmiss]
  unfold translateMiss
  simp only [translateTry, translateWithMyMemory, translateCatch, hd, hk,
    Bool.and_false, Bool.false_eq_true, if_false, if_true, hdiff, hfail]

theorem translateRun_mm_err_noretry (env : Oracle) (st : Cache) (now : Nat)
    (text src tgt : String)
    (hmiss : lookupA st (cacheKey text src tgt) = none)
    (hd : deeplCapabilities.contains tgt = false)
    (hdiff : ¬ (resolveMyMemorySource env text src).1 = tgt)
    (hfail : env.mymemory text (resolveMyMemorySource env text src).1 tgt = .error ()) :
    translate env st now text src tgt =
      (.error (), st,
       (resolveMyMemorySource env text src).2 ++ [CallEvent.mymemoryCall] ++ []) := by
  unfold translate
  rw [hmiss]
  unfold translateMiss
  simp only [translateTry, translateWithMyMemory, translateCatch, hd,
    Bool.false_and, Bool.false_eq_true, if_false, hdiff, hfail]

theorem translateRun_deepl_ok (env : Oracle) (st : Cache) (now : Nat)
    (text src tgt : String) (r : Option String)
    (hmiss : lookupA st (cacheKey text src tgt) = none)
    (hd : deeplCapabilities.contains tgt = true)
    (hk : env.deeplKey = true)
    (hok : env.deepl text src tgt = .ok r) :
    translate env st now text src tgt =
      (.ok r, cacheWrite st (cacheKey text src tgt) r now, [CallEvent.deeplCall]) := by
  unfold translate
  rw [hmiss]
  unfold translateMiss
  simp only [translateTry, translateWithDeepL, hd, hk, hok,
    Bool.and_self, if_true, Bool.not_true, Bool.false_eq_true, if_false]

theorem translateRun_fallback_skip (env : Oracle) (st : Cache) (now : Nat)
    (text src tgt : String)
    (hmiss : lookupA st (cacheKey text src tgt) = none)
    (hd : deeplCapabilities.contains tgt = true)
    (hk : env.deeplKey = true)
    (hfail : env.deepl text src tgt = .error ())
    (hsame : (resolveMyMemorySource env text src).1 = tgt) :
    translate env st now text src tgt =
      (.ok none, st, [CallEvent.deeplCall] ++ (resolveMyMemorySource env text src).2) := by
  unfold translate
  rw [hmiss]
  unfold translateMiss
  simp only [translateTry, translateWithDeepL, translateCatch, hd, hk, hfail,
    Bool.and_self, if_true, Bool.not_true, Bool.false_eq_true, if_false, hsame, if_pos]

theorem translateRun_fallback_ok (env : Oracle) (st : Cache) (now : Nat)
    (text src tgt r : String)
    (hmiss : lookupA st (cacheKey text src tgt) = none)
    (hd : deeplCapabilities.contains tgt = true)
    (hk : env.deeplKey = true)
    (hfail : env.deepl text src tgt = .error ())
    (hdiff : ¬ (resolveMyMemorySource env text src).1 = tgt)
    (hok : env.mymemory text (resolveMyMemorySource env text src).1 tgt = .ok r) :
    translate env st now text src tgt =
      (.ok (some r), cacheWrite st (cacheKey text src tgt) (some r) now,
       [CallEvent.deeplCall] ++
         ((resolveMyMemorySource env text src).2 ++ [CallEvent.mymemoryCall])) := by
  unfold translate
  rw [hmiss]
  unfold translateMiss
  simp only [translateTry, translateWithDeepL, translateWithMyMemory, translateCatch,
    hd, hk, hfail, Bool.and_self, if_true, Bool.not_true, Bool.false_eq_true, if_false,
    hdiff, hok]

theorem translateRun_fallback_err (env : Oracle) (st : Cache) (now : Nat)
    (text src tgt : String)
    (hmiss : lookupA st (cacheKey text src tgt) = none)
    (hd : deeplCapabilities.contains tgt = true)
    (hk : env.deeplKey = true)
    (hfail : env.deepl text src tgt = .error ())
    (hdiff : ¬ (resolveMyMemorySource env text src).1 = tgt)
    (hfail2 : env.mymemory text (resolveMyMemorySource env text src).1 tgt = .error ()) :
    translate env st now text src tgt =
      (.error (), st,
       [CallEvent.deeplCall] ++
         ((resolveMyMemorySource env text src).2 ++ [CallEvent.mymemoryCall])) := by
  unfold translate
  rw [hmiss]
  unfold translateMiss
  simp only [translateTry, translateWithDeepL, translateWithMyMemory, translateCatch,
    hd, hk, hfail, Bool.and_self, if_true, Bool.not_true, Bool.false_eq_true, if_false,
    hdiff, hfail2]

/-! ### Claim C1: same-language short-circuit -/

/-- Claim C1 counterexample: with DeepL configured and its call
succeeding, `translate("bonjour", "fr", "fr")` performs a DeepL call
and returns DeepL's result, not `null`, although the resolved source
tag equals the target tag. -/
theorem same_language_deepl_call_cex :
    (translate envDeeplOk [] 1000 "bonjour" "fr" "fr").2.2 = [CallEvent.deeplCall] ∧
    (translate envDeeplOk [] 1000 "bonjour" "fr" "fr").1 = .ok (some "salut") :=
  ⟨rfl, rfl⟩

/-- Claim C1 as amended: the same-language short-circuit exists only on
the MyMemory path.  On a cache miss with resolved source equal to the
target: when DeepL is not both selected and configured, `translate`
returns `null` with the cache unchanged and no provider call (at most a
local detection); when DeepL is selected and configured but its call
fails, the fallback returns `null` without calling MyMemory; but when
DeepL is selected and configured, DeepL itself is invoked even though
the source equals the target, and its result is returned and cached. -/
theorem same_language_skip_mymemory_path (env : Oracle) (st : Cache) (now : Nat)
    (text src tgt : String)
    (hmiss : lookupA st (cacheKey text src tgt) = none)
    (hsame : (resolveMyMemorySource env text src).1 = tgt) :
    ((deeplCapabilities.contains tgt && env.deeplKey) = false →
      translate env st now text src tgt =
        (.ok none, st, (resolveMyMemorySource env text src).2) ∧
      ∀ e ∈ (translate env st now text src tgt).2.2, e = CallEvent.detectCall) ∧
    (deeplCapabilities.contains tgt = true → env.deeplKey = true →
      env.deepl text src tgt = .error () →
      translate env st now text src tgt =
        (.ok none, st, [CallEvent.deeplCall] ++ (resolveMyMemorySource env text src).2)) ∧
    (deeplCapabilities.contains tgt = true → env.deeplKey = true →
      ∀ r, env.deepl text src tgt = .ok r →
        translate env st now text src tgt =
          (.ok r, cacheWrite st (cacheKey text src tgt) r now, [CallEvent.deeplCall])) := by
  refine ⟨?_, ?_, ?_⟩
  · intro hnd
    have heq := translateRun_mm_skip env st now text src tgt hmiss hnd hsame
    refine ⟨heq, ?_⟩
    rw [heq]
    exact resolve_log env text src
  · intro hd hk hfail
    exact translateRun_fallback_skip env st now text src tgt hmiss hd hk hfail hsame
  · intro hd hk r hok
    exact translateRun_deepl_ok env st now text src tgt r hmiss hd hk hok

/-- Witness for C1 (amended): with no DeepL key,
`translate("bonjour", "fr", "fr")` returns `null` from an empty cache
with no provider call at all. -/
theorem same_language_skip_mymemory_path_wit :
    translate envNoKey [] 5 "bonjour" "fr" "fr" = (.ok none, [], []) :=
  ((same_language_skip_mymemory_path envNoKey [] 5 "bonjour" "fr" "fr" rfl rfl).1
    rfl).1

/-! ### Claim C2: the same-language null result is not cached -/

/-- Claim C2 counterexample: with no DeepL key,
`translate("bonjour", "auto", "en")` resolves the source to `en` and
returns `null`, but stores nothing in the cache (the cache stays
empty), and the identical second call runs local detection again
instead of returning a cached `null`. -/
theorem null_result_not_cached_cex :
    (translate envNoKey [] 1000 "bonjour" "auto" "en").1 = .ok none ∧
    (translate envNoKey [] 1000 "bonjour" "auto" "en").2.1 = [] ∧
    (translate envNoKey (translate envNoKey [] 1000 "bonjour" "auto" "en").2.1 61000
        "bonjour" "auto" "en").2.2 = [CallEvent.detectCall] :=
  ⟨rfl, rfl, rfl⟩

/-- Claim C2 as amended: a same-language `null` result is returned by
an early `return` that bypasses the cache write entirely, so the cache
is left unchanged, and every repeated identical call re-resolves the
source (re-running detection when the source is `auto`) and returns
`null` again rather than hitting a cached entry. -/
theorem null_result_uncached_rerun (env : Oracle) (st : Cache)
    (text src tgt : String)
    (hmiss : lookupA st (cacheKey text src tgt) = none)
    (hsame : (resolveMyMemorySource env text src).1 = tgt)
    (hnd : (deeplCapabilities.contains tgt && env.deeplKey) = false) :
    ∀ now, translate env st now text src tgt =
      (.ok none, st, (resolveMyMemorySource env text src).2) :=
  fun now => translateRun_mm_skip env st now text src tgt hmiss hnd hsame

/-- Witness for C2 (amended): concrete run of the auto-detected
same-language skip, showing the unchanged empty cache and the repeated
detection call. -/
theorem null_result_uncached_rerun_wit :
    translate envNoKey [] 1000 "bonjour" "auto" "en" =
      (.ok none, [], [CallEvent.detectCall]) :=
  null_result_uncached_rerun envNoKey [] "bonjour" "auto" "en" rfl rfl rfl 1000

/-! ### Claim C7: cache hit within TTL, stale entries never served -/

/-- Claim C7: a second `translate` call while a cache entry for the
triple is younger than `CACHE_TTL` returns the cached result with no
provider invocation and no state change; an entry whose age is at
least `CACHE_TTL` is never served as a hit — the call behaves exactly
as the miss path. -/
theorem translate_cache_hit_ttl (env : Oracle) (st : Cache) (now : Nat)
    (text src tgt : String) :
    (∀ e, lookupA st (cacheKey text src tgt) = some e →
      now - e.timestamp < CACHE_TTL →
      translate env st now text src tgt = (.ok e.result, st, [])) ∧
    (∀ e, lookupA st (cacheKey text src tgt) = some e →
      CACHE_TTL ≤ now - e.timestamp →
      translate env st now text src tgt = translateMiss env st now text src tgt) := by
  constructor
  · intro e he hfresh
    unfold translate
    rw [he]
    simp [hfresh]
  · intro e he hstale
    unfold translate
    rw [he]
    have hn : ¬ (now - e.timestamp < CACHE_TTL) := by omega
    simp [hn]

/-- Witness for C7: a 1-second-old entry is served unchanged with no
calls; a 199-second-old entry is not served and the call equals the
miss path. -/
theorem translate_cache_hit_ttl_wit :
    translate envNoKey [(cacheKey "a" "fr" "en", ⟨some "b", 1000⟩)] 2000 "a" "fr" "en" =
      (.ok (some "b"), [(cacheKey "a" "fr" "en", ⟨some "b", 1000⟩)], []) ∧
    translate envNoKey [(cacheKey "a" "fr" "en", ⟨some "b", 1000⟩)] 200000 "a" "fr" "en" =
      translateMiss envNoKey [(cacheKey "a" "fr" "en", ⟨some "b", 1000⟩)] 200000
        "a" "fr" "en" :=
  ⟨(translate_cache_hit_ttl envNoKey _ 2000 "a" "fr" "en").1 ⟨some "b", 1000⟩ rfl
      (by decide),
   (translate_cache_hit_ttl envNoKey _ 200000 "a" "fr" "en").2 ⟨some "b", 1000⟩ rfl
      (by decide)⟩

/-! ### Claim C9: provider fallback and error policy -/

/-- Claim C9: when DeepL is selected and configured but fails while
MyMemory succeeds for the target, `translate` returns MyMemory's result
and DeepL's failure is not surfaced; with no API key DeepL is skipped
silently (never called); and `translate` raises an error only when
every eligible provider has failed — MyMemory failed, and DeepL also
failed whenever it was selected and configured. -/
theorem provider_fallback_error_policy (env : Oracle) (st : Cache) (now : Nat)
    (text src tgt : String)
    (hmiss : lookupA st (cacheKey text src tgt) = none) :
    (deeplCapabilities.contains tgt = true → env.deeplKey = true →
      env.deepl text src tgt = .error () →
      (resolveMyMemorySource env text src).1 ≠ tgt →
      ∀ r, env.mymemory text (resolveMyMemorySource env text src).1 tgt = .ok r →
        (translate env st now text src tgt).1 = .ok (some r)) ∧
    (env.deeplKey = false →
      CallEvent.deeplCall ∉ (translate env st now text src tgt).2.2) ∧
    (∀ e, (translate env st now text src tgt).1 = .error e →
      env.mymemory text (resolveMyMemorySource env text src).1 tgt = .error () ∧
      (deeplCapabilities.contains tgt = true → env.deeplKey = true →
        env.deepl text src tgt = .error ())) := by
  refine ⟨?_, ?_, ?_⟩
  · intro hd hk hfail hdiff r hok
    rw [translateRun_fallback_ok env st now text src tgt r hmiss hd hk hfail hdiff hok]
  · intro hk
    have hnd : (deeplCapabilities.contains tgt && env.deeplKey) = false := by
      rw [hk, Bool.and_false]
    by_cases hs : (resolveMyMemorySource env text src).1 = tgt
    · rw [translateRun_mm_skip env st now text src tgt hmiss hnd hs]
      intro hmem
      have := resolve_log env text src _ hmem
      simp at this
    · cases hmm : env.mymemory text (resolveMyMemorySource env text src).1 tgt with
      | ok r =>
        rw [translateRun_mm_ok env st now text src tgt r hmiss hnd hs hmm]
        intro hmem
        rcases List.mem_append.mp hmem with h | h
        · have := resolve_log env text src _ h
          simp at this
        · simp at h
      | error u =>
        cases u
        cases hcap : deeplCapabilities.contains tgt with
        | true =>
          rw [translateRun_mm_err_retry env st now text src tgt hmiss hcap hk hs hmm]
          intro hmem
          rcases List.mem_append.mp hmem with h | h
          · rcases List.mem_append.mp h with h2 | h2
            · have := resolve_log env text src _ h2
              simp at this
            · simp at h2
          · rcases List.mem_append.mp h with h2 | h2
            · have := resolve_log env text src _ h2
              simp at this
            · simp at h2
        | false =>
          rw [translateRun_mm_err_noretry env st now text src tgt hmiss hcap hs hmm]
          intro hmem
          rcases List.mem_append.mp hmem with h | h
          · rcases List.mem_append.mp h with h2 | h2
            · have := resolve_log env text src _ h2
              simp at this
            · simp at h2
          · simp at h
  · intro e herr
    by_cases hck : (deeplCapabilities.contains tgt && env.deeplKey) = true
    · have hd : deeplCapabilities.contains tgt = true := (Bool.and_eq_true _ _ |>.mp hck).1
      have hk : env.deeplKey = true := (Bool.and_eq_true _ _ |>.mp hck).2
      cases hdl : env.deepl text src tgt with
      | ok r =>
        rw [translateRun_deepl_ok env st now text src tgt r hmiss hd hk hdl] at herr
        simp at herr
      | error u =>
        cases u
        by_cases hs : (resolveMyMemorySource env text src).1 = tgt
        · rw [translateRun_fallback_skip env st now text src tgt hmiss hd hk hdl hs]
            at herr
          simp at herr
        · cases hmm : env.mymemory text (resolveMyMemorySource env text src).1 tgt with
          | ok r =>
            rw [translateRun_fallback_ok env st now text src tgt r hmiss hd hk hdl hs hmm]
              at herr
            simp at herr
          | error u2 =>
            cases u2
            exact ⟨rfl, fun _ _ => rfl⟩
    · have hnd : (deeplCapabilities.contains tgt && env.deeplKey) = false := by
        simpa using hck
      by_cases hs : (resolveMyMemorySource env text src).1 = tgt
      · rw [translateRun_mm_skip env st now text src tgt hmiss hnd hs] at herr
        simp at herr
      · cases hmm : env.mymemory text (resolveMyMemorySource env text src).1 tgt with
        | ok r =>
          rw [translateRun_mm_ok env st now text src tgt r hmiss hnd hs hmm] at herr
          simp at herr
        | error u =>
          cases u
          refine ⟨rfl, fun hd2 hk2 => ?_⟩
          rw [hd2, hk2] at hnd
          simp at hnd

/-- Witness for C9: DeepL configured but failing for target `es`,
MyMemory succeeding: the fallback result is returned with no error. -/
theorem provider_fallback_error_policy_wit :
    (translate envFallback [] 1000 "hello" "en" "es").1 = .ok (some "hola") :=
  (provider_fallback_error_policy envFallback [] 1000 "hello" "en" "es" rfl).1
    rfl rfl rfl (by decide) "hola" rfl

/-! ### Helper lemmas for the cooldown limiter map -/

theorem NodupKeys_nil : NodupKeys [] := by simp [NodupKeys]

theorem mem_keys_setA (l : RateMap) (k : String) (v : Nat) (a : String) :
    a ∈ (setA l k v).map Prod.fst → a ∈ l.map Prod.fst ∨ a = k := by
  induction l with
  | nil =>
    intro h
    simp [setA] at h
    exact Or.inr h
  | cons p rest ih =>
    intro h
    by_cases hp : p.1 = k
    · rw [setA, if_pos hp, List.map_cons] at h
      rcases List.mem_cons.mp h with h2 | h2
      · exact Or.inr h2
      · exact Or.inl (by rw [List.map_cons]; exact List.mem_cons.mpr (Or.inr h2))
    · rw [setA, if_neg hp, List.map_cons] at h
      rcases List.mem_cons.mp h with h2 | h2
      · exact Or.inl (by rw [List.map_cons]; exact List.mem_cons.mpr (Or.inl h2))
      · rcases ih h2 with h3 | h3
        · exact Or.inl (by rw [List.map_cons]; exact List.mem_cons.mpr (Or.inr h3))
        · exact Or.inr h3

theorem NodupKeys_setA (l : RateMap) (k : String) (v : Nat)
    (h : NodupKeys l) : NodupKeys (setA l k v) := by
  induction l with
  | nil => simp [NodupKeys, setA]
  | cons p rest ih =>
    unfold NodupKeys at h
    rw [List.map_cons, List.nodup_cons] at h
    by_cases hp : p.1 = k
    · unfold NodupKeys
      rw [setA, if_pos hp, List.map_cons, List.nodup_cons]
      exact ⟨by rw [← hp]; exact h.1, h.2⟩
    · unfold NodupKeys
      rw [setA, if_neg hp, List.map_cons, List.nodup_cons]
      refine ⟨?_, ih h.2⟩
      intro hmem
      rcases mem_keys_setA rest k v p.1 hmem with h2 | h2
      · exact h.1 h2
      · exact hp h2

theorem mem_keys_filter (l : RateMap) (q : String × Nat → Bool) (a : String)
    (h : a ∈ (l.filter q).map Prod.fst) : a ∈ l.map Prod.fst :=
  ((l.filter_sublist).map Prod.fst).subset h

theorem NodupKeys_filter (l : RateMap) (q : String × Nat → Bool)
    (h : NodupKeys l) : NodupKeys (l.filter q) :=
  List.Nodup.sublist ((l.filter_sublist).map Prod.fst) h

theorem lookupA_eq_none_of_not_mem_keys (l : RateMap) (k : String)
    (h : k ∉ l.map Prod.fst) : lookupA l k = none := by
  apply lookupA_eq_none
  intro p hp he
  exact h (he ▸ List.mem_map_of_mem Prod.fst hp)

theorem lookupA_filter_nodup (l : RateMap) (q : String × Nat → Bool) (k : String)
    (h : NodupKeys l) :
    lookupA (l.filter q) k =
      (lookupA l k).bind (fun v => if q (k, v) = true then some v else none) := by
  induction l with
  | nil => simp [lookupA]
  | cons p rest ih =>
    unfold NodupKeys at h
    rw [List.map_cons, List.nodup_cons] at h
    obtain ⟨k1, v1⟩ := p
    by_cases hp : k1 = k
    · subst hp
      cases hq : q (k1, v1) with
      | true =>
        rw [List.filter_cons_of_pos (by simpa using hq)]
        simp [lookupA, hq]
      | false =>
        rw [List.filter_cons_of_neg (by simpa using hq)]
        have hnone : lookupA (rest.filter q) k1 = none :=
          lookupA_eq_none_of_not_mem_keys _ _
            (fun hm => h.1 (mem_keys_filter rest q k1 hm))
        rw [hnone]
        simp [lookupA, hq]
    · cases hq : q (k1, v1) with
      | true =>
        rw [List.filter_cons_of_pos (by simpa using hq)]
        have hstep : lookupA ((k1, v1) :: rest.filter q) k =
            lookupA (rest.filter q) k := by
          simp [lookupA, hp]
        rw [hstep, ih h.2]
        simp [lookupA, hp]
      | false =>
        rw [List.filter_cons_of_neg (by simpa using hq)]
        rw [ih h.2]
        simp [lookupA, hp]

theorem rlRecord_lookupA_self (rl : RateMap) (key : String) (now : Nat) :
    lookupA (rlRecord rl key now) key = some now := by
  unfold rlRecord
  by_cases h : (setA rl key now).length > 500
  · rw [if_pos h]
    apply lookupA_filter_setA
    simp
  · rw [if_neg h]
    exact lookupA_setA_self rl key now

theorem NodupKeys_rlRecord (rl : RateMap) (key : String) (now : Nat)
    (h : NodupKeys rl) : NodupKeys (rlRecord rl key now) := by
  unfold rlRecord
  by_cases hc : (setA rl key now).length > 500
  · rw [if_pos hc]
    exact NodupKeys_filter _ _ (NodupKeys_setA _ _ _ h)
  · rw [if_neg hc]
    exact NodupKeys_setA _ _ _ h

theorem rlRecord_lookupA_ne (rl : RateMap) (key : String) (now : Nat) (k2 : String)
    (hn : NodupKeys rl) (hne : key ≠ k2) :
    lookupA (rlRecord rl key now) k2 = lookupA rl k2 ∨
    (∃ t, lookupA rl k2 = some t ∧ now - t > TRANSLATION_COOLDOWN * 2 ∧
      lookupA (rlRecord rl key now) k2 = none) := by
  unfold rlRecord
  by_cases h : (setA rl key now).length > 500
  · rw [if_pos h]
    rw [lookupA_filter_nodup _ _ _ (NodupKeys_setA _ _ _ hn),
        lookupA_setA_ne rl key k2 now hne]
    cases hl : lookupA rl k2 with
    | none => exact Or.inl rfl
    | some t =>
      by_cases hq : now - t > TRANSLATION_COOLDOWN * 2
      · refine Or.inr ⟨t, rfl, hq, ?_⟩
        simp
        omega
      · refine Or.inl ?_
        simp
        omega
  · rw [if_neg h]
    exact Or.inl (lookupA_setA_ne rl key k2 now hne)

theorem isRateLimited_reject (rl : RateMap) (u c : String) (now t : Nat)
    (h : lookupA rl (rlKey u c) = some t) (ht : t ≠ 0)
    (hw : now - t < TRANSLATION_COOLDOWN) :
    isRateLimited rl u c now = (true, rl) := by
  unfold isRateLimited
  rw [h]
  show (if t ≠ 0 ∧ now - t < TRANSLATION_COOLDOWN then (true, rl)
        else (false, rlRecord rl (rlKey u c) now)) = (true, rl)
  rw [if_pos ⟨ht, hw⟩]

theorem isRateLimited_records (rl : RateMap) (u c : String) (now : Nat)
    (h : ∀ t, lookupA rl (rlKey u c) = some t →
      ¬ (t ≠ 0 ∧ now - t < TRANSLATION_COOLDOWN)) :
    isRateLimited rl u c now = (false, rlRecord rl (rlKey u c) now) := by
  unfold isRateLimited
  cases hl : lookupA rl (rlKey u c) with
  | none => rfl
  | some t =>
    show (if t ≠ 0 ∧ now - t < TRANSLATION_COOLDOWN then (true, rl)
          else (false, rlRecord rl (rlKey u c) now)) =
        (false, rlRecord rl (rlKey u c) now)
    rw [if_neg (h t hl)]

theorem isRateLimited_rec_lookup (rl : RateMap) (u c : String) (now : Nat)
    (h : (isRateLimited rl u c now).1 = false) :
    lookupA (isRateLimited rl u c now).2 (rlKey u c) = some now := by
  by_cases hrej : ∃ t, lookupA rl (rlKey u c) = some t ∧ t ≠ 0 ∧
      now - t < TRANSLATION_COOLDOWN
  · obtain ⟨t, hl, ht, hw⟩ := hrej
    rw [isRateLimited_reject rl u c now t hl ht hw] at h
    simp at h
  · have hadm : ∀ t, lookupA rl (rlKey u c) = some t →
        ¬ (t ≠ 0 ∧ now - t < TRANSLATION_COOLDOWN) :=
      fun t hl hcon => hrej ⟨t, hl, hcon.1, hcon.2⟩
    rw [isRateLimited_records rl u c now hadm]
    exact rlRecord_lookupA_self rl (rlKey u c) now

/-- Invariant induction for the cooldown limiter: processing
time-ordered positive-time calls through `isRateLimited`, the admitted
times for any fixed key are spaced at least one cooldown apart, all lie
at or above any lower bound on the call times, and all lie at least one
cooldown after any nonzero timestamp already stored for that key. -/
theorem runRL_aux (k : String) (ops : List RLOp) :
    ∀ (rl : RateMap) (lb : Nat),
      List.Pairwise (fun a b => a.now ≤ b.now) ops →
      (∀ op ∈ ops, 0 < op.now ∧ lb ≤ op.now) →
      NodupKeys rl →
      (∀ t, lookupA rl k = some t → t ≤ lb) →
      List.Pairwise (fun a b => a + TRANSLATION_COOLDOWN ≤ b)
        (admitTimes k (runRL rl ops).2) ∧
      (∀ a ∈ admitTimes k (runRL rl ops).2, lb ≤ a) ∧
      (∀ t, lookupA rl k = some t → t ≠ 0 →
        ∀ a ∈ admitTimes k (runRL rl ops).2, t + TRANSLATION_COOLDOWN ≤ a) := by
  induction ops with
  | nil =>
    intro rl lb _ _ _ _
    simp [runRL, admitTimes]
  | cons op rest ih =>
    intro rl lb hsort hpos hnod hbound
    obtain ⟨hop, hrest⟩ := List.pairwise_cons.mp hsort
    have hopn : 0 < op.now ∧ lb ≤ op.now := hpos op (by simp)
    have hposrest : ∀ o ∈ rest, 0 < o.now ∧ op.now ≤ o.now := by
      intro o ho
      exact ⟨(hpos o (by simp [ho])).1, hop o ho⟩
    by_cases hrej : ∃ t, lookupA rl (rlKey op.userId op.channelId) = some t ∧
        t ≠ 0 ∧ op.now - t < TRANSLATION_COOLDOWN
    · obtain ⟨t0, hl0, ht0, hw0⟩ := hrej
      have hstep : isRateLimited rl op.userId op.channelId op.now = (true, rl) :=
        isRateLimited_reject _ _ _ _ _ hl0 ht0 hw0
      have ihh := ih rl op.now hrest hposrest hnod
        (fun t ht => le_trans (hbound t ht) hopn.2)
      simp only [runRL, hstep, if_true]
      refine ⟨ihh.1, ?_, ?_⟩
      · intro a ha
        exact le_trans hopn.2 (ihh.2.1 a ha)
      · intro t hlt htne a ha
        exact ihh.2.2 t hlt htne a ha
    · have hadm : ∀ t, lookupA rl (rlKey op.userId op.channelId) = some t →
          ¬ (t ≠ 0 ∧ op.now - t < TRANSLATION_COOLDOWN) :=
        fun t hl hcon => hrej ⟨t, hl, hcon.1, hcon.2⟩
      have hstep : isRateLimited rl op.userId op.channelId op.now =
          (false, rlRecord rl (rlKey op.userId op.channelId) op.now) :=
        isRateLimited_records _ _ _ _ hadm
      have hnod2 : NodupKeys (rlRecord rl (rlKey op.userId op.channelId) op.now) :=
        NodupKeys_rlRecord _ _ _ hnod
      simp only [runRL, hstep]
      by_cases hKk : rlKey op.userId op.channelId = k
      · have hself : lookupA (rlRecord rl (rlKey op.userId op.channelId) op.now) k =
            some op.now := by
          rw [← hKk]
          exact rlRecord_lookupA_self _ _ _
        have ihh := ih (rlRecord rl (rlKey op.userId op.channelId) op.now) op.now
          hrest hposrest hnod2
          (fun t ht => by rw [hself] at ht; injection ht with h2; omega)
        have hadmlist : admitTimes k ((rlKey op.userId op.channelId, op.now) ::
            (runRL (rlRecord rl (rlKey op.userId op.channelId) op.now) rest).2) =
            op.now :: admitTimes k
              (runRL (rlRecord rl (rlKey op.userId op.channelId) op.now) rest).2 := by
          simp [admitTimes, hKk]
        have hafter : ∀ a ∈ admitTimes k
            (runRL (rlRecord rl (rlKey op.userId op.channelId) op.now) rest).2,
            op.now + TRANSLATION_COOLDOWN ≤ a :=
          ihh.2.2 op.now hself (by omega)
        simp only [if_false, Bool.false_eq_true, hadmlist]
        refine ⟨?_, ?_, ?_⟩
        · exact List.pairwise_cons.mpr ⟨hafter, ihh.1⟩
        · intro a ha
          rcases List.mem_cons.mp ha with h2 | h2
          · omega
          · exact le_trans hopn.2 (ihh.2.1 a h2)
        · intro t hlt htne a ha
          have hnw : ¬ (op.now - t < TRANSLATION_COOLDOWN) := by
            intro hcon
            exact hadm t (hKk ▸ hlt) ⟨htne, hcon⟩
          have htlb : t ≤ lb := hbound t hlt
          rcases List.mem_cons.mp ha with h2 | h2
          · omega
          · have := hafter a h2
            omega
      · rcases rlRecord_lookupA_ne rl (rlKey op.userId op.channelId) op.now k
            hnod hKk with hsame | ⟨t1, hl1, hstale, hnone⟩
        · have ihh := ih (rlRecord rl (rlKey op.userId op.channelId) op.now) op.now
            hrest hposrest hnod2
            (fun t ht => by
              rw [hsame] at ht
              exact le_trans (hbound t ht) hopn.2)
          have hadmlist : admitTimes k ((rlKey op.userId op.channelId, op.now) ::
              (runRL (rlRecord rl (rlKey op.userId op.channelId) op.now) rest).2) =
              admitTimes k
                (runRL (rlRecord rl (rlKey op.userId op.channelId) op.now) rest).2 := by
            simp [admitTimes, hKk]
          simp only [if_false, Bool.false_eq_true, hadmlist]
          refine ⟨ihh.1, ?_, ?_⟩
          · intro a ha
            exact le_trans hopn.2 (ihh.2.1 a ha)
          · intro t hlt htne a ha
            exact ihh.2.2 t (by rw [hsame]; exact hlt) htne a ha
        · have ihh := ih (rlRecord rl (rlKey op.userId op.channelId) op.now) op.now
            hrest hposrest hnod2
            (fun t ht => by rw [hnone] at ht; cases ht)
          have hadmlist : admitTimes k ((rlKey op.userId op.channelId, op.now) ::
              (runRL (rlRecord rl (rlKey op.userId op.channelId) op.now) rest).2) =
              admitTimes k
                (runRL (rlRecord rl (rlKey op.userId op.channelId) op.now) rest).2 := by
            simp [admitTimes, hKk]
          simp only [if_false, Bool.false_eq_true, hadmlist]
          refine ⟨ihh.1, ?_, ?_⟩
          · intro a ha
            exact le_trans hopn.2 (ihh.2.1 a ha)
          · intro t hlt htne a ha
            have ht1 : t = t1 := by
              rw [hlt] at hl1
              exact Option.some.inj hl1
            have hup := ihh.2.1 a ha
            omega

/-! ### Claim C4: cooldown limiter admits at most one call per window -/

/-- Claim C4: for a fixed (user, channel) key, `isRateLimited` rejects
any call whose last admitted timestamp is within the cooldown window,
an admitted call records the current time under the key, and in any
time-ordered sequence of calls (`Date.now()` values are positive) the
admitted times for a fixed key are spaced at least one cooldown apart,
so at most one call is admitted in any half-open window of length
`TRANSLATION_COOLDOWN`. -/
theorem cooldown_at_most_one_per_window :
    (∀ rl u c now t, lookupA rl (rlKey u c) = some t → t ≠ 0 →
      now - t < TRANSLATION_COOLDOWN →
      isRateLimited rl u c now = (true, rl)) ∧
    (∀ rl u c now, (isRateLimited rl u c now).1 = false →
      lookupA (isRateLimited rl u c now).2 (rlKey u c) = some now) ∧
    (∀ ops : List RLOp, List.Pairwise (fun a b => a.now ≤ b.now) ops →
      (∀ op ∈ ops, 0 < op.now) →
      ∀ k, List.Pairwise (fun a b => a + TRANSLATION_COOLDOWN ≤ b)
        (admitTimes k (runRL [] ops).2)) := by
  refine ⟨?_, ?_, ?_⟩
  · intro rl u c now t h ht hw
    exact isRateLimited_reject rl u c now t h ht hw
  · intro rl u c now h
    exact isRateLimited_rec_lookup rl u c now h
  · intro ops hsort hpos k
    exact (runRL_aux k ops [] 0 hsort (fun op ho => ⟨hpos op ho, Nat.zero_le _⟩)
      NodupKeys_nil (fun t ht => by simp [lookupA] at ht)).1

/-- Witness for C4: a three-call trace for one key at times 1000, 1500,
3000 admits only 1000 and 3000, which are a full cooldown apart; the
middle call is rejected. -/
theorem cooldown_at_most_one_per_window_wit :
    List.Pairwise (fun a b => a + TRANSLATION_COOLDOWN ≤ b)
      (admitTimes (rlKey "u" "c")
        (runRL [] [⟨"u", "c", 1000⟩, ⟨"u", "c", 1500⟩, ⟨"u", "c", 3000⟩]).2) :=
  cooldown_at_most_one_per_window.2.2
    [⟨"u", "c", 1000⟩, ⟨"u", "c", 1500⟩, ⟨"u", "c", 3000⟩]
    (by decide) (by decide) (rlKey "u" "c")

/-! ### Claim C10: cooldown consumed before the pair lookup -/

/-- Claim C10: a non-bot guild message passing the loop-guard and
whitelist checks reaches the cooldown limiter before the handler looks
for translation pairs or text, so a message in a channel with no
configured pairs still records the (author, channel) cooldown
timestamp; the author's next message within the cooldown window for
the same (author, channel) key is then silently dropped by the rate
check, regardless of the loop-guard state, whitelist, or pairs (even
pairs configured for that channel in the meantime). -/
theorem cooldown_recorded_before_pair_check
    (allowed : List String) (gp : String → List ChannelPair) (g : LoopGuard)
    (rl : RateMap) (m : Message) (now : Nat) (gid : String)
    (hbot : m.authorBot = false) (hloop : seen g m.messageId = false)
    (hg : m.guildId = some gid)
    (hwl : ¬ (allowed ≠ [] ∧ ¬ (allowed.contains gid = true)))
    (hpass : (isRateLimited rl m.authorId m.channelId now).1 = false)
    (hnopairs : (gp gid).filter (fun p => decide (p.sourceChannel = m.channelId)) = []) :
    messageAdmission allowed gp g rl m now =
      (.droppedNoPairs, (isRateLimited rl m.authorId m.channelId now).2) ∧
    lookupA (messageAdmission allowed gp g rl m now).2
      (rlKey m.authorId m.channelId) = some now ∧
    (∀ (allowed2 : List String) (gp2 : String → List ChannelPair)
        (g2 : LoopGuard) (m2 : Message) (now2 : Nat) (gid2 : String),
      m2.authorBot = false → seen g2 m2.messageId = false →
      m2.guildId = some gid2 →
      ¬ (allowed2 ≠ [] ∧ ¬ (allowed2.contains gid2 = true)) →
      m2.authorId = m.authorId → m2.channelId = m.channelId →
      0 < now → now2 - now < TRANSLATION_COOLDOWN →
      messageAdmission allowed2 gp2 g2
          (messageAdmission allowed gp g rl m now).2 m2 now2 =
        (.droppedRateLimited, (messageAdmission allowed gp g rl m now).2)) := by
  have hrun : messageAdmission allowed gp g rl m now =
      (.droppedNoPairs, (isRateLimited rl m.authorId m.channelId now).2) := by
    unfold messageAdmission
    rw [hbot]
    simp only [Bool.false_eq_true, if_false]
    rw [hloop]
    simp only [Bool.false_eq_true, if_false, hg]
    rw [if_neg hwl]
    rw [hpass]
    simp only [Bool.false_eq_true, if_false]
    rw [hnopairs]
    simp
  have hlk : lookupA (messageAdmission allowed gp g rl m now).2
      (rlKey m.authorId m.channelId) = some now := by
    rw [hrun]
    exact isRateLimited_rec_lookup rl m.authorId m.channelId now hpass
  refine ⟨hrun, hlk, ?_⟩
  intro allowed2 gp2 g2 m2 now2 gid2 hb2 hl2 hg2 hwl2 hau hch hposn hwin
  have hrej : isRateLimited (messageAdmission allowed gp g rl m now).2
      m2.authorId m2.channelId now2 =
      (true, (messageAdmission allowed gp g rl m now).2) := by
    apply isRateLimited_reject _ _ _ _ now _ (by omega) hwin
    rw [hau, hch]
    exact hlk
  set rl2 := (messageAdmission allowed gp g rl m now).2 with hrl2
  unfold messageAdmission
  rw [hb2]
  simp only [Bool.false_eq_true, if_false]
  rw [hl2]
  simp only [Bool.false_eq_true, if_false, hg2]
  rw [if_neg hwl2]
  rw [hrej]
  simp

/-- Witness for C10: a first message in a pairless channel consumes the
cooldown; a second message from the same author and channel one second
later is dropped by the rate limiter even though a pair now exists for
that channel. -/
theorem cooldown_recorded_before_pair_check_wit :
    messageAdmission [] (fun _ => []) ⟨[], []⟩ []
        ⟨false, "u", some "G", "c", "hi", "m1", 0⟩ 1000 =
      (.droppedNoPairs,
        (isRateLimited [] "u" "c" 1000).2) ∧
    messageAdmission [] (fun _ => [⟨"p", "G", "c", "B", "en", "es", "t"⟩])
        ⟨[], []⟩ (messageAdmission [] (fun _ => []) ⟨[], []⟩ []
          ⟨false, "u", some "G", "c", "hi", "m1", 0⟩ 1000).2
        ⟨false, "u", some "G", "c", "hello", "m2", 0⟩ 2000 =
      (.droppedRateLimited,
        (messageAdmission [] (fun _ => []) ⟨[], []⟩ []
          ⟨false, "u", some "G", "c", "hi", "m1", 0⟩ 1000).2) :=
  ⟨(cooldown_recorded_before_pair_check [] (fun _ => []) ⟨[], []⟩ []
      ⟨false, "u", some "G", "c", "hi", "m1", 0⟩ 1000 "G"
      rfl rfl rfl (by simp) rfl rfl).1,
   (cooldown_recorded_before_pair_check [] (fun _ => []) ⟨[], []⟩ []
      ⟨false, "u", some "G", "c", "hi", "m1", 0⟩ 1000 "G"
      rfl rfl rfl (by simp) rfl rfl).2.2
     [] (fun _ => [⟨"p", "G", "c", "B", "en", "es", "t"⟩]) ⟨[], []⟩
     ⟨false, "u", some "G", "c", "hello", "m2", 0⟩ 2000 "G"
     rfl rfl rfl (by simp) rfl rfl (by omega) (by decide)⟩

end TranslatorBot
